import Mathlib

/-!
Verification of the KRAKEN_VOLUME streaming-metrics and alerting engine.

The definitions below are a shallow embedding of `src/index.js` (the third
iteration of the file, which implements the lookback strategy with the
quantized-level alert machine and the 5-minute digest, plus the second
iteration's short-window strategy `computeVelocity`).  JavaScript numbers are
modelled as rationals; `Math.floor` / `Math.round` are modelled exactly
(`jfloor`, `jround`); timestamps are natural numbers of seconds (milliseconds
for alert cooldowns), with truncated natural subtraction matching the
JavaScript comparisons involved (a negative difference fails the same
comparisons that a truncated-to-zero difference fails, at the points where
subtraction is used).
-/

namespace KrakenVolume

/-- JavaScript `Math.floor` on an exact rational: floor division of the
normalized numerator by the (positive) denominator. -/
def jfloor (q : ℚ) : ℤ := q.num / q.den

/-- The helper `jfloor` agrees with the mathematical floor. -/
theorem jfloor_eq_floor (q : ℚ) : jfloor q = ⌊q⌋ := Rat.floor_def.symm

/-- JavaScript `Math.round`: round half toward positive infinity. -/
def jround (q : ℚ) : ℤ := jfloor (q + 1/2)

/-- JavaScript `Math.sign` restricted to finite numbers. -/
def jsign (q : ℚ) : ℚ := if 0 < q then 1 else if q < 0 then -1 else 0

/-- A JavaScript number: either a finite value (modelled exactly as a
rational) or one of the non-finite values `NaN`, `Infinity`, `-Infinity`. -/
inductive JsNum where
  | num (q : ℚ)
  | nan
  | posInf
  | negInf
deriving DecidableEq

/-- Whether a JavaScript number is finite (`Number.isFinite`). -/
def JsNum.isFinite : JsNum → Bool
  | .num _ => true
  | _ => false

/-- Embeds `pct` (line 907): `Number.isFinite(n) ? Math.round(n*100)/100 : 0`. -/
def pct (n : JsNum) : ℚ :=
  match n with
  | .num q => (jround (q * 100) : ℚ) / 100
  | _ => 0

/-- Restriction of `pct` to finite inputs: round to 2 decimal places. -/
def pctQ (q : ℚ) : ℚ := (jround (q * 100) : ℚ) / 100

/-- The deployment configuration constants read from the environment. -/
structure Config where
  /-- ALERT_DIFF_THRESHOLD_PCT (default 5) -/
  threshold : ℚ
  /-- ALERT_LEVEL_STEP_PCT (default 1.25 in the lookback iteration) -/
  levelStep : ℚ
  /-- ALERT_MIN_INTERVAL_SEC * 1000 (default 300000 ms) -/
  alertMinMs : ℕ
  /-- RATE_WINDOW_SEC (default 60) -/
  rateWindowSec : ℕ
  /-- LOOKBACK_HOURS (default 24) -/
  lookbackHours : ℕ
  /-- DAYBUF_RES_SEC (default 60) -/
  daybufResSec : ℕ
  /-- DIGEST_TOP_N (default 5) -/
  digestTopN : ℕ
  /-- DIGEST_MIN_ABS_DELTA_PCT (default 3) -/
  digestMinAbsDelta : ℚ
deriving DecidableEq

/-- The default configuration of the lookback iteration. -/
def defaultConfig : Config :=
  { threshold := 5, levelStep := 5/4, alertMinMs := 300000, rateWindowSec := 60,
    lookbackHours := 24, daybufResSec := 60, digestTopN := 5, digestMinAbsDelta := 3 }

/-- DAYBUF_KEEP_HRS * 3600: `Math.max(LOOKBACK_HOURS + 2, 26)` hours in seconds. -/
def keepSeconds (cfg : Config) : ℕ := max (cfg.lookbackHours + 2) 26 * 3600

/-- Short-buffer horizon of the lookback iteration:
`Math.max(RATE_WINDOW_SEC * 10, 600)`. -/
def horizonB (cfg : Config) : ℕ := max (cfg.rateWindowSec * 10) 600

/-- A ticker observation as stored in `S.last`. -/
structure Obs where
  ts : ℕ
  vol24 : ℚ
  price : ℚ
  avg24 : ℚ
deriving DecidableEq

/-- A minute-resolution long-buffer entry (`daybuf`). -/
structure DaySample where
  ts : ℕ
  vol24 : ℚ
  price : ℚ
deriving DecidableEq

/-- A short trend-buffer entry (`buf`) of the lookback iteration. -/
structure TrendSample where
  ts : ℕ
  diff : ℚ
deriving DecidableEq

/-- Per-pair alert hysteresis memory (`S.alert`) of the lookback iteration. -/
structure AlertState where
  level : ℚ
  lastAt : ℕ
deriving DecidableEq

/-- Per-pair state of the lookback iteration (`perPair[pair]`). -/
structure PairState where
  last : Option Obs
  daybuf : List DaySample
  lastMinuteBucket : ℕ
  vol24Pct : ℚ
  price24Pct : ℚ
  diffPct : ℚ
  buf : List TrendSample
  alert : AlertState
  /-- recorded in `ensureState` but never read or written afterwards -/
  digestLastSentAt : ℕ
deriving DecidableEq

/-- Fresh state created by `ensureState`. -/
def initPairState : PairState :=
  { last := none, daybuf := [], lastMinuteBucket := 0, vol24Pct := 0, price24Pct := 0,
    diffPct := 0, buf := [], alert := { level := 0, lastAt := 0 }, digestLastSentAt := 0 }

/-- Embeds `nonneg` (line 908): `Math.max(eps, n || 0)` with `eps = 1e-9`. -/
def nonneg (q : ℚ) : ℚ := max (1/1000000000) q

/-- Embeds `pushMinuteSample` (lines 1019-1030): append one entry per
minute-resolution bucket and trim the front beyond `keepSeconds`. -/
def pushMinuteSample (cfg : Config) (S : PairState) (ts : ℕ) (vol24 price : ℚ) : PairState :=
  let bucket := ts / cfg.daybufResSec
  if S.lastMinuteBucket = bucket then S
  else
    let cutoff := ts - keepSeconds cfg
    { S with lastMinuteBucket := bucket,
             daybuf := (S.daybuf ++ [({ ts := ts, vol24 := vol24, price := price } : DaySample)]).dropWhile
               (fun e => decide (e.ts < cutoff)) }

/-- Embeds `sampleAtLookback` (lines 1033-1041): backward-linear scan for the
latest `daybuf` entry with timestamp at most `ts - LOOKBACK_HOURS*3600`. -/
def sampleAtLookback (cfg : Config) (S : PairState) (ts : ℕ) : Option DaySample :=
  let target : ℤ := (ts : ℤ) - cfg.lookbackHours * 3600
  S.daybuf.reverse.find? (fun e => decide ((e.ts : ℤ) ≤ target))

/-- Embeds `recentSlope` (lines 1044-1052) on the lookback trend buffer. -/
def recentSlope (buf : List TrendSample) : ℚ :=
  let n := buf.length
  if n < 2 then 0
  else
    let a := buf.getD (n - 3) ({ ts := 0, diff := 0 } : TrendSample)
    let b := buf.getD (n - 1) ({ ts := 0, diff := 0 } : TrendSample)
    (b.diff - a.diff) / (max 1 ((b.ts : ℤ) - a.ts) : ℚ)

/-- Embeds `quantizeLevel` (lines 1090-1096). -/
def quantizeLevel (cfg : Config) (diffPct : ℚ) : ℚ :=
  let ad := |diffPct|
  if ad < cfg.threshold then 0
  else
    let stepsAbove : ℤ := jfloor ((ad - cfg.threshold) / cfg.levelStep) + 1
    let level := cfg.threshold + ((stepsAbove - 1 : ℤ) : ℚ) * cfg.levelStep
    (jround (level * jsign diffPct * 100) : ℚ) / 100

/-- Embeds `maybeAlert` (lines 1098-1137).  Returns the updated pair state and
whether a Slack notification was emitted. -/
def maybeAlert (cfg : Config) (S : PairState) (nowMs : ℕ) : PairState × Bool :=
  match S.last with
  | none => (S, false)
  | some _ =>
    let diffNow := pctQ S.diffPct
    let newLevel := quantizeLevel cfg diffNow
    let a := S.alert
    if newLevel = a.level then (S, false)
    else if nowMs - a.lastAt < cfg.alertMinMs then (S, false)
    else if newLevel = 0 ∧ a.level ≠ 0 then
      ({ S with alert := { level := 0, lastAt := nowMs } }, true)
    else
      ({ S with alert := { level := newLevel, lastAt := nowMs } }, true)

/-- Embeds `computeFromTicker` (lines 1054-1087): record a minute sample, look
up the lookback reference, compute the three percentage signals, maintain the
short trend buffer, and run the alert machine. -/
def computeFromTicker (cfg : Config) (S : PairState) (ts : ℕ) (vol24 price avg24 : ℚ)
    (nowMs : ℕ) : PairState × Bool :=
  let S1 := pushMinuteSample cfg S ts vol24 price
  match sampleAtLookback cfg S1 ts with
  | none =>
    ({ S1 with last := some ({ ts := ts, vol24 := vol24, price := price, avg24 := avg24 } : Obs) },
     false)
  | some ref =>
    let vol24Pct := (vol24 - ref.vol24) / nonneg ref.vol24 * 100
    let price24Pct := (price - ref.price) / nonneg ref.price * 100
    let diffPct := vol24Pct - price24Pct
    let buf1 := (S1.buf ++ [({ ts := ts, diff := diffPct } : TrendSample)]).dropWhile
      (fun e => decide (ts - e.ts > horizonB cfg))
    let S2 := { S1 with
      last := some { ts := ts, vol24 := vol24, price := price, avg24 := avg24 },
      vol24Pct := vol24Pct, price24Pct := price24Pct, diffPct := diffPct, buf := buf1 }
    maybeAlert cfg S2 nowMs

/-- Driver folding a sequence of metric updates through the alert machine:
each list element is a raw divergence value together with the wall-clock
millisecond time of the update; the second component counts emitted
notifications. -/
def alertUpdates (cfg : Config) : PairState → List (ℚ × ℕ) → PairState × ℕ
  | S, [] => (S, 0)
  | S, (d, t) :: rest =>
    let res := maybeAlert cfg { S with diffPct := d } t
    let tail := alertUpdates cfg res.1 rest
    (tail.1, (if res.2 then 1 else 0) + tail.2)

/-- Embeds `momentumScore` (lines 910-914). -/
def momentumScore (vol24Pct price24Pct : ℚ) : ℚ :=
  vol24Pct / max (1/10000) |price24Pct|

/-- A stable descending insertion by a rational key, modelling JavaScript's
stable `Array.prototype.sort` with comparator `(a, b) => key(b) - key(a)`. -/
def insertDesc {α : Type} (key : α → ℚ) (x : α) : List α → List α
  | [] => [x]
  | y :: ys => if key y < key x then x :: y :: ys else y :: insertDesc key x ys

/-- Stable descending sort by a rational key (insertion sort). -/
def sortDesc {α : Type} (key : α → ℚ) : List α → List α
  | [] => []
  | x :: xs => insertDesc key x (sortDesc key xs)

/-- One rendered snapshot entry (`pairs[p]` in `currentSnapshot`). -/
structure SnapEntry where
  ts : ℕ
  price : ℚ
  avg24 : ℚ
  vol24 : ℚ
  volVelPct : ℚ
  priceChangePct : ℚ
  diffPct : ℚ
  /-- the `ratio` field: `Number(momentumScore({vol24Pct, price24Pct}).toFixed(2))` -/
  momScore : ℚ
deriving DecidableEq

/-- A rendered snapshot (`currentSnapshot`'s return value). -/
structure Snapshot where
  ts : ℕ
  subscribed : ℕ
  pairs : List (String × SnapEntry)
  top : List String
deriving DecidableEq

/-- Builds one snapshot entry from a pair state with a last observation
(lines 942-955).  `Number(x.toFixed(2))` is modelled as rounding to
2 decimal places. -/
def snapEntry (S : PairState) (l : Obs) : SnapEntry :=
  let vol24Pct := pctQ S.vol24Pct
  let price24Pct := pctQ S.price24Pct
  { ts := l.ts, price := l.price, avg24 := l.avg24, vol24 := l.vol24,
    volVelPct := vol24Pct, priceChangePct := price24Pct, diffPct := pctQ S.diffPct,
    momScore := pctQ (momentumScore vol24Pct price24Pct) }

/-- Sort key used by the snapshot's ranking comparator (lines 959-963).  In
`ratio` rank mode the comparator calls `momentumScore(av)` on the snapshot
entry, which reads the fields `av.vol24Pct` and `av.price24Pct`; the snapshot
entry stores these values under the names `volVelPct` / `priceChangePct`, so
both reads yield `undefined` and `Number(undefined || 0)` is `0`: every key is
`momentumScore 0 0 = 0`.  In `volvel` mode the comparator reads the existing
`volVelPct` field. -/
def snapshotRankKey (ratioMode : Bool) (e : SnapEntry) : ℚ :=
  if ratioMode then momentumScore 0 0 else e.volVelPct

/-- Embeds `currentSnapshot` (lines 937-978): a read-only projection of all
pair states that have a last observation, plus the ranked top-5 order. -/
def currentSnapshot (ratioMode : Bool) (wsPairs : List String)
    (perPair : String → Option PairState) (nowSec : ℕ) : Snapshot :=
  let pairs := wsPairs.filterMap (fun p =>
    match perPair p with
    | none => none
    | some S =>
      match S.last with
      | none => none
      | some l => some (p, snapEntry S l))
  let ranked := (sortDesc (fun x => snapshotRankKey ratioMode x.2) pairs).map (fun x => x.1)
  { ts := nowSec, subscribed := wsPairs.length, pairs := pairs, top := ranked.take 5 }

/-- The snapshot builder as a state transition: the source function performs
no assignment to `perPair` or to any pair state, so the state it leaves
behind is the state it was given. -/
def snapshotStep (ratioMode : Bool) (wsPairs : List String)
    (perPair : String → Option PairState) (nowSec : ℕ) :
    Snapshot × (String → Option PairState) :=
  (currentSnapshot ratioMode wsPairs perPair nowSec, perPair)

/-- One row of the 5-minute digest (lines 1157-1163). -/
structure DigestRow where
  pair : String
  avgDiff : ℚ
  vol24Pct : ℚ
  price24Pct : ℚ
  trendPerMin : ℚ
deriving DecidableEq

/-- The qualifying digest rows (lines 1144-1164): pairs with a last
observation, at least two trend samples inside the 5-minute window, and an
average divergence at or above the minimum-significance floor. -/
def digestRows (cfg : Config) (wsPairs : List String)
    (perPair : String → Option PairState) (nowSec : ℕ) : List DigestRow :=
  wsPairs.filterMap (fun pair =>
    match perPair pair with
    | none => none
    | some S =>
      match S.last with
      | none => none
      | some _ =>
        let cutoff := nowSec - 5 * 60
        let window := S.buf.filter (fun x => decide (x.ts ≥ cutoff))
        if window.length < 2 then none
        else
          let avgDiff := (window.map (fun x => x.diff)).sum / window.length
          if |avgDiff| < cfg.digestMinAbsDelta then none
          else some { pair := pair, avgDiff := avgDiff, vol24Pct := pctQ S.vol24Pct,
                      price24Pct := pctQ S.price24Pct,
                      trendPerMin := pctQ (recentSlope S.buf * 60) })

/-- Embeds `rankAndDigest` (lines 1140-1180): rank the qualifying rows by
absolute average divergence, keep the top N, and post one digest message when
that list is nonempty.  The first component records whether a digest payload
was emitted; the second is the emitted top list.  No per-pair or digest state
is read or written for deduplication purposes. -/
def rankAndDigest (cfg : Config) (wsPairs : List String)
    (perPair : String → Option PairState) (nowSec : ℕ) : Bool × List DigestRow :=
  let rows := sortDesc (fun r => |r.avgDiff|) (digestRows cfg wsPairs perPair nowSec)
  let top := rows.take cfg.digestTopN
  if top.isEmpty then (false, []) else (true, top)

/-- A short-window buffer entry of the second iteration (`S.buf`): timestamp,
rolling 24h volume and the divergence at record time. -/
structure SampleA where
  ts : ℕ
  vol24 : ℚ
  diff : ℚ
deriving DecidableEq

/-- Alert memory of the second iteration (`S.alert`). -/
structure AlertA where
  lastTime : ℕ
  stepIndex : ℤ
  lastDiff : ℚ
  sign : ℤ
deriving DecidableEq

/-- Per-pair state of the short-window iteration. -/
structure PairStateA where
  last : Option Obs
  buf : List SampleA
  volVelPct : ℚ
  priceChangePct : ℚ
  diffPct : ℚ
  alert : AlertA
deriving DecidableEq

/-- Fresh per-pair state of the short-window iteration. -/
def initPairStateA : PairStateA :=
  { last := none, buf := [], volVelPct := 0, priceChangePct := 0, diffPct := 0,
    alert := { lastTime := 0, stepIndex := 0, lastDiff := 0, sign := 0 } }

/-- Short-window horizon: `Math.max(RATE_WINDOW_SEC * 6, 300)` (line 474). -/
def horizonA (cfg : Config) : ℕ := max (cfg.rateWindowSec * 6) 300

/-- Embeds `stepIndexForDiff` (lines 510-514). -/
def stepIndexForDiff (cfg : Config) (diff : ℚ) : ℤ :=
  if |diff| < cfg.threshold then 0
  else 1 + jfloor ((|diff| - cfg.threshold) / cfg.levelStep)

/-- Embeds `recentSlope` of the short-window iteration (lines 516-524). -/
def recentSlopeA (buf : List SampleA) : ℚ :=
  let n := buf.length
  if n < 2 then 0
  else
    let a := buf.getD (n - 3) ({ ts := 0, vol24 := 0, diff := 0 } : SampleA)
    let b := buf.getD (n - 1) ({ ts := 0, vol24 := 0, diff := 0 } : SampleA)
    (b.diff - a.diff) / (max 1 ((b.ts : ℤ) - a.ts) : ℚ)

/-- Embeds the reference-sample selection of `computeVelocity`
(lines 480-483): starting from the oldest entry (or a synthetic fallback for
an empty buffer), scan from the newest entry downward and stop at the first
entry at least `rateWindowSec` old. -/
def findRefSample (buf : List SampleA) (ts w : ℕ) (fb : SampleA) : SampleA :=
  match buf.reverse.find? (fun s => decide (w ≤ ts - s.ts)) with
  | some s => s
  | none => buf.headD fb

/-- Embeds `maybeAlert` of the short-window iteration (lines 536-591):
stepwise UP/DOWN transitions, a disarm message on dropping below threshold,
and periodic reminders after the cooldown. -/
def maybeAlertA (cfg : Config) (S : PairStateA) (nowMs : ℕ) : PairStateA × Bool :=
  match S.last with
  | none => (S, false)
  | some _ =>
    let diff := pctQ S.diffPct
    let sgn : ℤ := if 0 ≤ diff then 1 else -1
    let step := stepIndexForDiff cfg diff
    let a := S.alert
    let deltaSteps := step - a.stepIndex
    let crossedOut := step = 0 ∧ 0 < a.stepIndex
    let enoughTime := cfg.alertMinMs ≤ nowMs - a.lastTime
    if 0 < deltaSteps ∨ (deltaSteps < 0 ∧ 0 < step) ∨ crossedOut ∨ (0 < step ∧ enoughTime) then
      ({ S with alert := { lastTime := nowMs, stepIndex := step, lastDiff := diff, sign := sgn } },
       true)
    else (S, false)

/-- Embeds `computeVelocity` (lines 470-501): trim the short buffer, select a
reference sample about `rateWindowSec` back, compute the annualized volume
velocity and the price deviation from the trailing average, store the new
sample, and run the alert machine. -/
def computeVelocityA (cfg : Config) (S : PairStateA) (ts : ℕ) (vol24 price avg24 : ℚ)
    (nowMs : ℕ) : PairStateA × Bool :=
  let buf1 := S.buf.dropWhile (fun s => decide (ts - s.ts > horizonA cfg))
  let older := findRefSample buf1 ts cfg.rateWindowSec
    ({ ts := ts - 1, vol24 := vol24, diff := S.diffPct } : SampleA)
  let dt : ℕ := max 1 (ts - older.ts)
  let v0 := max older.vol24 (1/1000000000)
  let volVelPct := (vol24 - older.vol24) / v0 * ((3600 : ℚ) / dt) * 100
  let priceChangePct := (price - avg24) / max avg24 (1/1000000000) * 100
  let diffPct := volVelPct - priceChangePct
  let S2 := { S with
    last := some ({ ts := ts, vol24 := vol24, price := price, avg24 := avg24 } : Obs),
    volVelPct := volVelPct, priceChangePct := priceChangePct, diffPct := diffPct,
    buf := buf1 ++ [({ ts := ts, vol24 := vol24, diff := diffPct } : SampleA)] }
  maybeAlertA cfg S2 nowMs

/-! Helper lemmas about the lookback alert machine. -/

/-- Any call of `maybeAlert` that does not emit leaves the state unchanged. -/
lemma maybeAlert_noEmit (cfg : Config) (S : PairState) (nowMs : ℕ)
    (h : (maybeAlert cfg S nowMs).2 = false) : (maybeAlert cfg S nowMs).1 = S := by
  cases hl : S.last with
  | none => simp [maybeAlert, hl]
  | some o =>
    simp only [maybeAlert, hl] at h ⊢
    split_ifs at h ⊢ <;> simp_all

/-- Any call of `maybeAlert` that emits stamps the alert state with the newly
quantized level and the current time. -/
lemma maybeAlert_emit (cfg : Config) (S : PairState) (nowMs : ℕ)
    (h : (maybeAlert cfg S nowMs).2 = true) :
    (maybeAlert cfg S nowMs).1.alert =
      { level := quantizeLevel cfg (pctQ S.diffPct), lastAt := nowMs } := by
  cases hl : S.last with
  | none => simp [maybeAlert, hl] at h
  | some o =>
    simp only [maybeAlert, hl] at h ⊢
    split_ifs at h ⊢ with h1 h2 h3
    · simp_all
    · simp_all

/-- While the cooldown has not elapsed, `maybeAlert` emits nothing and leaves
the pair state (in particular the stored level) unchanged. -/
lemma maybeAlert_cooldown (cfg : Config) (S : PairState) (nowMs : ℕ)
    (h : nowMs - S.alert.lastAt < cfg.alertMinMs) :
    maybeAlert cfg S nowMs = (S, false) := by
  cases hl : S.last with
  | none => simp [maybeAlert, hl]
  | some o =>
    simp only [maybeAlert, hl]
    split_ifs <;> simp_all

/-- When the new quantized level equals the stored level, `maybeAlert` is a
no-op regardless of elapsed time. -/
lemma maybeAlert_same_level (cfg : Config) (S : PairState) (nowMs : ℕ)
    (h : quantizeLevel cfg (pctQ S.diffPct) = S.alert.level) :
    maybeAlert cfg S nowMs = (S, false) := by
  cases hl : S.last with
  | none => simp [maybeAlert, hl]
  | some o =>
    simp only [maybeAlert, hl]
    rw [if_pos h]

/-- `maybeAlert` touches only the `alert` field. -/
lemma maybeAlert_frame (cfg : Config) (S : PairState) (nowMs : ℕ) :
    (maybeAlert cfg S nowMs).1.last = S.last ∧
    (maybeAlert cfg S nowMs).1.daybuf = S.daybuf ∧
    (maybeAlert cfg S nowMs).1.lastMinuteBucket = S.lastMinuteBucket ∧
    (maybeAlert cfg S nowMs).1.vol24Pct = S.vol24Pct ∧
    (maybeAlert cfg S nowMs).1.price24Pct = S.price24Pct ∧
    (maybeAlert cfg S nowMs).1.diffPct = S.diffPct ∧
    (maybeAlert cfg S nowMs).1.buf = S.buf := by
  cases hl : S.last with
  | none => simp [maybeAlert, hl]
  | some o =>
    simp only [maybeAlert, hl]
    split_ifs <;> simp [hl]

/-! Claim theorems C1 - C3. -/

/-- C1: for every divergence value `d`, `quantizeLevel` returns 0 when
`|d| < baseThreshold`, and otherwise returns
`sign d * (baseThreshold + (stepsAbove - 1) * stepSize)` with
`stepsAbove = floor((|d| - baseThreshold) / stepSize) + 1`, rounded to two
decimal places; with `baseThreshold = 5` and `stepSize = 1.25`,
`quantizeLevel 7.8 = 7.50`. -/
theorem C1_quantizeLevel_characterization :
    (∀ (cfg : Config) (d : ℚ), |d| < cfg.threshold → quantizeLevel cfg d = 0) ∧
    (∀ (cfg : Config) (d : ℚ), cfg.threshold ≤ |d| →
      quantizeLevel cfg d =
        (jround (jsign d *
          (cfg.threshold +
            ((jfloor ((|d| - cfg.threshold) / cfg.levelStep) + 1 - 1 : ℤ) : ℚ) * cfg.levelStep)
          * 100) : ℚ) / 100) ∧
    quantizeLevel defaultConfig (39/5) = 15/2 := by
  refine ⟨?_, ?_, ?_⟩
  · intro cfg d h
    unfold quantizeLevel
    rw [if_pos h]
  · intro cfg d h
    unfold quantizeLevel
    rw [if_neg (not_lt.mpr h)]
    ring_nf
  · norm_num [quantizeLevel, defaultConfig, jround, jfloor, jsign, abs_of_pos]

/-- C1 witness: the characterization applied at concrete inputs 3 and 7.8
with the default configuration. -/
theorem C1_quantizeLevel_characterization_witness :
    quantizeLevel defaultConfig 3 = 0 :=
  C1_quantizeLevel_characterization.1 defaultConfig 3 (by norm_num [defaultConfig])

/-- C2 (amended): two quantized-level transitions within one cooldown period
produce at most one notification, but a cooldown-suppressed call leaves the
pair state entirely unchanged: the stored level stays at the last announced
level, not the level quantized from the latest divergence.  Conjunct 1 shows
the cooldown-suppressed call returns the state unchanged with no emission;
conjunct 2 shows every emission stamps `alert.lastAt` with the current time,
so a second transition inside the cooldown window hits conjunct 1. -/
theorem C2_cooldown_suppression_no_bookkeeping :
    (∀ (cfg : Config) (S : PairState) (nowMs : ℕ),
        nowMs - S.alert.lastAt < cfg.alertMinMs → maybeAlert cfg S nowMs = (S, false)) ∧
    (∀ (cfg : Config) (S : PairState) (nowMs : ℕ),
        (maybeAlert cfg S nowMs).2 = true → (maybeAlert cfg S nowMs).1.alert.lastAt = nowMs) := by
  constructor
  · intro cfg S nowMs h
    exact maybeAlert_cooldown cfg S nowMs h
  · intro cfg S nowMs h
    rw [maybeAlert_emit cfg S nowMs h]

/-- C2 witness: a concrete cooldown-suppressed call. -/
theorem C2_cooldown_suppression_no_bookkeeping_witness :
    maybeAlert defaultConfig
      { initPairState with alert := { level := 5, lastAt := 1000000 } } 1000100 =
      ({ initPairState with alert := { level := 5, lastAt := 1000000 } }, false) :=
  C2_cooldown_suppression_no_bookkeeping.1 defaultConfig
    { initPairState with alert := { level := 5, lastAt := 1000000 } } 1000100
    (by norm_num [defaultConfig])

/-- Starting state for the concrete alert runs: a fresh pair that already has
a last observation. -/
def cexAlertStart : PairState :=
  { initPairState with last := some ({ ts := 0, vol24 := 0, price := 0, avg24 := 0 } : Obs) }

/-- Concrete two-update run for C2: a first transition to level 5.00 fires at
wall-clock 1000000000 ms; 60 s later (inside the 300 s cooldown) the
divergence 6.3 quantizes to level 6.25. -/
def cexRunC2 : PairState × ℕ :=
  alertUpdates defaultConfig cexAlertStart [(51/10, 1000000000), (63/10, 1000060000)]

/-- C2 counterexample: after the cooldown-suppressed second transition, the
stored alert level is still 5 while the latest divergence quantizes to 6.25,
so the stored level does not equal the level quantized from the latest
divergence (only one notification was emitted, as the claim also says). -/
theorem C2_counterexample :
    cexRunC2.2 = 1 ∧ cexRunC2.1.alert.level = 5 ∧
    quantizeLevel defaultConfig (pctQ cexRunC2.1.diffPct) = 25/4 ∧
    cexRunC2.1.alert.level ≠ quantizeLevel defaultConfig (pctQ cexRunC2.1.diffPct) := by
  norm_num [cexRunC2, cexAlertStart, alertUpdates, maybeAlert, initPairState,
    quantizeLevel, defaultConfig, pctQ, jround, jfloor, jsign, abs_of_pos]

/-- Under a fixed target level, once the stored level equals the target no
further update in the sequence emits. -/
lemma alertUpdates_count_zero (cfg : Config) (L : ℚ) :
    ∀ (updates : List (ℚ × ℕ)) (S : PairState), S.alert.level = L →
      (∀ u ∈ updates, quantizeLevel cfg (pctQ u.1) = L) →
      (alertUpdates cfg S updates).2 = 0 := by
  intro updates
  induction updates with
  | nil => intro S _ _; rfl
  | cons u rest ih =>
    intro S h1 h2
    obtain ⟨d, t⟩ := u
    have hq : quantizeLevel cfg (pctQ d) = L := h2 (d, t) (by simp)
    have hsame : maybeAlert cfg { S with diffPct := d } t = ({ S with diffPct := d }, false) :=
      maybeAlert_same_level cfg _ t (by simp [hq, h1])
    simp only [alertUpdates, hsame]
    simpa using ih { S with diffPct := d } h1 (fun u hu => h2 u (List.mem_cons_of_mem _ hu))

/-- C3: when the new quantized level equals the stored level, `maybeAlert`
emits nothing regardless of elapsed time; consequently any sequence of
divergence updates that all quantize to one and the same nonzero level emits
at most one notification in total. -/
theorem C3_hysteresis_at_most_one_alert :
    (∀ (cfg : Config) (S : PairState) (nowMs : ℕ),
        quantizeLevel cfg (pctQ S.diffPct) = S.alert.level →
        maybeAlert cfg S nowMs = (S, false)) ∧
    (∀ (cfg : Config) (L : ℚ) (updates : List (ℚ × ℕ)) (S : PairState),
        L ≠ 0 → (∀ u ∈ updates, quantizeLevel cfg (pctQ u.1) = L) →
        (alertUpdates cfg S updates).2 ≤ 1) := by
  constructor
  · intro cfg S nowMs h
    exact maybeAlert_same_level cfg S nowMs h
  · intro cfg L updates
    induction updates with
    | nil => intro S _ _; simp [alertUpdates]
    | cons u rest ih =>
      intro S hL h2
      obtain ⟨d, t⟩ := u
      have hq : quantizeLevel cfg (pctQ d) = L := h2 (d, t) (by simp)
      have hrest : ∀ u ∈ rest, quantizeLevel cfg (pctQ u.1) = L :=
        fun u hu => h2 u (List.mem_cons_of_mem _ hu)
      rcases hemit : (maybeAlert cfg { S with diffPct := d } t).2 with _ | _
      · have hst := maybeAlert_noEmit cfg { S with diffPct := d } t hemit
        simp only [alertUpdates, hemit, hst]
        simpa using ih { S with diffPct := d } hL hrest
      · have hst := maybeAlert_emit cfg { S with diffPct := d } t hemit
        have hlevel : (maybeAlert cfg { S with diffPct := d } t).1.alert.level = L := by
          rw [hst]; simpa using hq
        have hz := alertUpdates_count_zero cfg L rest
          (maybeAlert cfg { S with diffPct := d } t).1 hlevel hrest
        simp only [alertUpdates, hemit, hz]
        simp

/-- C3 witness: the oscillation 5.1 / 5.3 / 5.1 (all quantizing to level 5.00
at threshold 5 and step 1.25) fires at most one alert. -/
theorem C3_hysteresis_at_most_one_alert_witness :
    (alertUpdates defaultConfig cexAlertStart
      [(51/10, 1000000000), (53/10, 1000001000), (51/10, 1000002000)]).2 ≤ 1 :=
  C3_hysteresis_at_most_one_alert.2 defaultConfig 5
    [(51/10, 1000000000), (53/10, 1000001000), (51/10, 1000002000)] cexAlertStart
    (by norm_num)
    (by
      intro u hu
      simp only [List.mem_cons, List.not_mem_nil, or_false] at hu
      rcases hu with h | h | h <;> subst h <;>
        norm_num [quantizeLevel, defaultConfig, pctQ, jround, jfloor, jsign, abs_of_pos])

/-- `pushMinuteSample` touches only the long buffer and its bucket marker. -/
lemma pushMinuteSample_frame (cfg : Config) (S : PairState) (ts : ℕ) (vol24 price : ℚ) :
    (pushMinuteSample cfg S ts vol24 price).last = S.last ∧
    (pushMinuteSample cfg S ts vol24 price).vol24Pct = S.vol24Pct ∧
    (pushMinuteSample cfg S ts vol24 price).price24Pct = S.price24Pct ∧
    (pushMinuteSample cfg S ts vol24 price).diffPct = S.diffPct ∧
    (pushMinuteSample cfg S ts vol24 price).buf = S.buf ∧
    (pushMinuteSample cfg S ts vol24 price).alert = S.alert := by
  simp only [pushMinuteSample]
  split_ifs <;> simp

/-- C4 (amended): an observation processed while no lookback reference exists
updates `lastObservation` (and the long buffer) only: the three metric fields
and the trend buffer are untouched, and the alert machine is not run (no
notification, alert state unchanged).  The pair is *not* excluded from the
snapshot ranking, however: see the counterexample. -/
theorem C4_warmup_updates_last_only (cfg : Config) (S : PairState) (ts nowMs : ℕ)
    (vol price avg : ℚ)
    (h : sampleAtLookback cfg (pushMinuteSample cfg S ts vol price) ts = none) :
    (computeFromTicker cfg S ts vol price avg nowMs).2 = false ∧
    (computeFromTicker cfg S ts vol price avg nowMs).1.last =
      some ({ ts := ts, vol24 := vol, price := price, avg24 := avg } : Obs) ∧
    (computeFromTicker cfg S ts vol price avg nowMs).1.vol24Pct = S.vol24Pct ∧
    (computeFromTicker cfg S ts vol price avg nowMs).1.price24Pct = S.price24Pct ∧
    (computeFromTicker cfg S ts vol price avg nowMs).1.diffPct = S.diffPct ∧
    (computeFromTicker cfg S ts vol price avg nowMs).1.buf = S.buf ∧
    (computeFromTicker cfg S ts vol price avg nowMs).1.alert = S.alert := by
  obtain ⟨h1, h2, h3, h4, h5, h6⟩ := pushMinuteSample_frame cfg S ts vol price
  simp only [computeFromTicker, h]
  simp [h2, h3, h4, h5, h6]

/-- C4 witness: the first observation of a fresh pair is a warm-up update. -/
theorem C4_warmup_updates_last_only_witness :
    (computeFromTicker defaultConfig initPairState 1000000 100 10 10 999999999).2 = false ∧
    (computeFromTicker defaultConfig initPairState 1000000 100 10 10 999999999).1.last =
      some ({ ts := 1000000, vol24 := 100, price := 10, avg24 := 10 } : Obs) ∧
    (computeFromTicker defaultConfig initPairState 1000000 100 10 10 999999999).1.vol24Pct =
      initPairState.vol24Pct ∧
    (computeFromTicker defaultConfig initPairState 1000000 100 10 10 999999999).1.price24Pct =
      initPairState.price24Pct ∧
    (computeFromTicker defaultConfig initPairState 1000000 100 10 10 999999999).1.diffPct =
      initPairState.diffPct ∧
    (computeFromTicker defaultConfig initPairState 1000000 100 10 10 999999999).1.buf =
      initPairState.buf ∧
    (computeFromTicker defaultConfig initPairState 1000000 100 10 10 999999999).1.alert =
      initPairState.alert :=
  C4_warmup_updates_last_only defaultConfig initPairState 1000000 999999999 100 10 10
    (by simp [sampleAtLookback, pushMinuteSample, keepSeconds, initPairState, defaultConfig])

/-- The per-pair state right after the warm-up observation of the
counterexample to C4's ranking clause. -/
def c4State : PairState :=
  (computeFromTicker defaultConfig initPairState 1000000 100 10 10 999999999).1

/-- A one-pair state map holding only the warm-up pair. -/
def c4Map : String → Option PairState :=
  fun p => if p = "SOL/USD" then some c4State else none

/-- The snapshot rendered right after the warm-up observation. -/
def c4Snap : Snapshot := currentSnapshot true ["SOL/USD"] c4Map 1000001

/-- C4 counterexample: the observation at timestamp 1000000 found no lookback
reference (warm-up), yet the pair appears in the snapshot's pair projection
and in its ranked top list, because `currentSnapshot` excludes only pairs
without a `lastObservation` — a warm-up pair does contribute to the ranking,
with zero metric values. -/
theorem C4_counterexample :
    sampleAtLookback defaultConfig
      (pushMinuteSample defaultConfig initPairState 1000000 100 10) 1000000 = none ∧
    c4State.vol24Pct = 0 ∧ c4State.price24Pct = 0 ∧ c4State.diffPct = 0 ∧
    c4Snap.pairs.map (fun x => x.1) = ["SOL/USD"] ∧
    c4Snap.top = ["SOL/USD"] := by
  refine ⟨?_, ?_, ?_, ?_, ?_, ?_⟩ <;>
    simp [c4Snap, c4Map, c4State, currentSnapshot, computeFromTicker, sampleAtLookback,
      pushMinuteSample, keepSeconds, initPairState, defaultConfig, sortDesc, insertDesc,
      snapEntry, snapshotRankKey]

/-- Inserting into the stable descending sort adds one element. -/
lemma insertDesc_length {α : Type} (key : α → ℚ) (x : α) (l : List α) :
    (insertDesc key x l).length = l.length + 1 := by
  induction l with
  | nil => rfl
  | cons y ys ih =>
    simp only [insertDesc]
    split_ifs <;> simp [ih]

/-- The stable descending sort preserves length. -/
lemma sortDesc_length {α : Type} (key : α → ℚ) (l : List α) :
    (sortDesc key l).length = l.length := by
  induction l with
  | nil => rfl
  | cons y ys ih => simp [sortDesc, insertDesc_length, ih]

/-- Membership in the stable descending insertion. -/
lemma mem_insertDesc {α : Type} (key : α → ℚ) (x : α) (l : List α) (a : α) :
    a ∈ insertDesc key x l ↔ a = x ∨ a ∈ l := by
  induction l with
  | nil => simp [insertDesc]
  | cons y ys ih =>
    simp only [insertDesc]
    split_ifs <;> simp [ih]
    tauto

/-- Membership is preserved by the stable descending sort. -/
lemma mem_sortDesc {α : Type} (key : α → ℚ) (l : List α) (a : α) :
    a ∈ sortDesc key l ↔ a ∈ l := by
  induction l with
  | nil => simp [sortDesc]
  | cons y ys ih => simp [sortDesc, mem_insertDesc, ih]

/-- C5 (amended): the digest aggregator performs no deduplication at all: a
digest payload is emitted exactly when the qualifying-row list is nonempty
(given a positive top-N), independent of the previous cycle's membership or
leader value — the `digest.lastSentAt` field is never consulted.  Hence two
consecutive cycles with identical membership and an unmoved leader both emit
(see the counterexample). -/
theorem C5_digest_emits_iff_rows_nonempty (cfg : Config) (wsPairs : List String)
    (perPair : String → Option PairState) (nowSec : ℕ) (hN : 1 ≤ cfg.digestTopN) :
    ((rankAndDigest cfg wsPairs perPair nowSec).1 = true ↔
      digestRows cfg wsPairs perPair nowSec ≠ []) := by
  unfold rankAndDigest
  set rows := digestRows cfg wsPairs perPair nowSec with hrows
  by_cases hempty : rows = []
  · simp [hempty, sortDesc]
  · have hlen : (sortDesc (fun r => |r.avgDiff|) rows).length = rows.length :=
      sortDesc_length _ rows
    have hslen : 0 < (sortDesc (fun r => |r.avgDiff|) rows).length := by
      rw [hlen]
      exact List.length_pos.mpr hempty
    have htake : ¬ ((sortDesc (fun r => |r.avgDiff|) rows).take cfg.digestTopN).isEmpty := by
      rw [List.isEmpty_iff, List.take_eq_nil_iff]
      push_neg
      exact ⟨by omega, List.length_pos.mp hslen⟩
    simp [htake, hempty]

/-- A trend-buffer state used by the digest counterexamples: two samples with
divergence 10, recorded shortly before the digest cycle at `nowSec`. -/
def c5State (t1 t2 : ℕ) : PairState :=
  { initPairState with
    last := some ({ ts := t2, vol24 := 100, price := 10, avg24 := 10 } : Obs),
    vol24Pct := 20, price24Pct := 10, diffPct := 10,
    buf := [({ ts := t1, diff := 10 } : TrendSample), ({ ts := t2, diff := 10 } : TrendSample)] }

/-- The state map of the first digest cycle. -/
def c5Map1 : String → Option PairState :=
  fun p => if p = "A/USD" then some (c5State 999990 999995) else none

/-- The state map of the second digest cycle, 300 s later: same pair, same
divergence values, fresh samples inside the new window. -/
def c5Map2 : String → Option PairState :=
  fun p => if p = "A/USD" then some (c5State 1000290 1000295) else none

set_option maxHeartbeats 1000000 in
/-- C5 counterexample: two consecutive digest cycles (300 s apart) with
identical top-N membership (only `A/USD`) and identical leader average
divergence (10, so the leader moved by 0, under any positive re-post
threshold) both emit a digest payload — the second cycle is not suppressed. -/
theorem C5_counterexample :
    (rankAndDigest defaultConfig ["A/USD"] c5Map1 1000000).1 = true ∧
    (rankAndDigest defaultConfig ["A/USD"] c5Map2 1000300).1 = true ∧
    (rankAndDigest defaultConfig ["A/USD"] c5Map1 1000000).2.map (fun r => r.pair) = ["A/USD"] ∧
    (rankAndDigest defaultConfig ["A/USD"] c5Map2 1000300).2.map (fun r => r.pair) = ["A/USD"] ∧
    (rankAndDigest defaultConfig ["A/USD"] c5Map1 1000000).2.map (fun r => r.avgDiff) = [10] ∧
    (rankAndDigest defaultConfig ["A/USD"] c5Map2 1000300).2.map (fun r => r.avgDiff) = [10] := by
  have h1 : digestRows defaultConfig ["A/USD"] c5Map1 1000000 =
      [{ pair := "A/USD", avgDiff := 10, vol24Pct := 20, price24Pct := 10, trendPerMin := 0 }] := by
    norm_num [digestRows, List.filterMap_cons, c5Map1, c5State, initPairState, defaultConfig,
      recentSlope, pctQ, jround, jfloor, abs_of_pos]
  have h2 : digestRows defaultConfig ["A/USD"] c5Map2 1000300 =
      [{ pair := "A/USD", avgDiff := 10, vol24Pct := 20, price24Pct := 10, trendPerMin := 0 }] := by
    norm_num [digestRows, List.filterMap_cons, c5Map2, c5State, initPairState, defaultConfig,
      recentSlope, pctQ, jround, jfloor, abs_of_pos]
  refine ⟨?_, ?_, ?_, ?_, ?_, ?_⟩ <;>
    · simp only [rankAndDigest, h1, h2]
      norm_num [sortDesc, insertDesc, defaultConfig]

/-- C5 witness: the amended characterization applied to the first
counterexample cycle. -/
theorem C5_digest_emits_iff_rows_nonempty_witness :
    ((rankAndDigest defaultConfig ["A/USD"] c5Map1 1000000).1 = true ↔
      digestRows defaultConfig ["A/USD"] c5Map1 1000000 ≠ []) :=
  C5_digest_emits_iff_rows_nonempty defaultConfig ["A/USD"] c5Map1 1000000
    (by norm_num [defaultConfig])

/-- `maybeAlertA` touches only the `alert` field. -/
lemma maybeAlertA_frame (cfg : Config) (S : PairStateA) (nowMs : ℕ) :
    (maybeAlertA cfg S nowMs).1.volVelPct = S.volVelPct ∧
    (maybeAlertA cfg S nowMs).1.priceChangePct = S.priceChangePct ∧
    (maybeAlertA cfg S nowMs).1.diffPct = S.diffPct ∧
    (maybeAlertA cfg S nowMs).1.buf = S.buf ∧
    (maybeAlertA cfg S nowMs).1.last = S.last := by
  cases hl : S.last with
  | none => simp [maybeAlertA, hl]
  | some o =>
    simp only [maybeAlertA, hl]
    split_ifs <;> simp [hl]

/-- Configuration of the concrete Strategy A example: a 600 s rate window, so
the one-hour-old reference sample survives the trim (horizon 3600 s). -/
def c6Cfg : Config := { defaultConfig with rateWindowSec := 600 }

/-- Strategy A state holding a single reference sample: volume 1000 recorded
one hour before the incoming observation. -/
def c6State : PairStateA :=
  { initPairStateA with buf := [({ ts := 1000000, vol24 := 1000, diff := 0 } : SampleA)] }

/-- C6: in the short-window strategy, with selected reference sample `r` and
`dt = max(1, now - r.ts)`, the stored velocity is
`(vol - r.vol24) / max(r.vol24, 1e-9) * (3600 / dt) * 100` and the stored
price change is `(price - avg) / max(avg, 1e-9) * 100`, with the divergence
their difference; concretely, reference volume 1000, current volume 1100,
dt = 3600 s, price 110 and trailing average 100 yield velocity 10, price
change 10, divergence 0, and no alert fires at base threshold 5. -/
theorem C6_strategyA_velocity_formulas :
    (∀ (cfg : Config) (S : PairStateA) (ts : ℕ) (vol price avg : ℚ) (nowMs : ℕ) (r : SampleA),
        findRefSample (S.buf.dropWhile (fun s => decide (ts - s.ts > horizonA cfg))) ts
          cfg.rateWindowSec ({ ts := ts - 1, vol24 := vol, diff := S.diffPct } : SampleA) = r →
        (computeVelocityA cfg S ts vol price avg nowMs).1.volVelPct =
          (vol - r.vol24) / max r.vol24 (1/1000000000) *
            ((3600 : ℚ) / ((max 1 (ts - r.ts) : ℕ) : ℚ)) * 100 ∧
        (computeVelocityA cfg S ts vol price avg nowMs).1.priceChangePct =
          (price - avg) / max avg (1/1000000000) * 100 ∧
        (computeVelocityA cfg S ts vol price avg nowMs).1.diffPct =
          (computeVelocityA cfg S ts vol price avg nowMs).1.volVelPct -
            (computeVelocityA cfg S ts vol price avg nowMs).1.priceChangePct) ∧
    ((computeVelocityA c6Cfg c6State 1003600 1100 110 100 1000000000).1.volVelPct = 10 ∧
     (computeVelocityA c6Cfg c6State 1003600 1100 110 100 1000000000).1.priceChangePct = 10 ∧
     (computeVelocityA c6Cfg c6State 1003600 1100 110 100 1000000000).1.diffPct = 0 ∧
     (computeVelocityA c6Cfg c6State 1003600 1100 110 100 1000000000).2 = false) := by
  constructor
  · intro cfg S ts vol price avg nowMs r hr
    refine ⟨?_, ?_, ?_⟩ <;>
      simp only [computeVelocityA, (maybeAlertA_frame _ _ _).1,
        (maybeAlertA_frame _ _ _).2.1, (maybeAlertA_frame _ _ _).2.2.1]
    all_goals simp [hr]
  · refine ⟨?_, ?_, ?_, ?_⟩ <;>
      norm_num [computeVelocityA, c6Cfg, c6State, initPairStateA, defaultConfig, horizonA,
        findRefSample, maybeAlertA, stepIndexForDiff, pctQ, jround, jfloor, max_def,
        abs_of_pos]

/-- C6 witness: the general formula applied to the concrete reference sample
(timestamp 1000000, volume 1000) of the example state. -/
theorem C6_strategyA_velocity_formulas_witness :
    (computeVelocityA c6Cfg c6State 1003600 1100 110 100 1000000000).1.volVelPct =
      (1100 - ({ ts := 1000000, vol24 := 1000, diff := 0 } : SampleA).vol24) /
        max ({ ts := 1000000, vol24 := 1000, diff := 0 } : SampleA).vol24 (1/1000000000) *
        ((3600 : ℚ) /
          ((max 1 (1003600 - ({ ts := 1000000, vol24 := 1000, diff := 0 } : SampleA).ts) : ℕ) : ℚ))
        * 100 ∧
    (computeVelocityA c6Cfg c6State 1003600 1100 110 100 1000000000).1.priceChangePct =
      ((110 : ℚ) - 100) / max 100 (1/1000000000) * 100 ∧
    (computeVelocityA c6Cfg c6State 1003600 1100 110 100 1000000000).1.diffPct =
      (computeVelocityA c6Cfg c6State 1003600 1100 110 100 1000000000).1.volVelPct -
        (computeVelocityA c6Cfg c6State 1003600 1100 110 100 1000000000).1.priceChangePct :=
  C6_strategyA_velocity_formulas.1 c6Cfg c6State 1003600 1100 110 100 1000000000
    ({ ts := 1000000, vol24 := 1000, diff := 0 } : SampleA)
    (by norm_num [findRefSample, c6Cfg, c6State, initPairStateA, defaultConfig, horizonA])

/-- In a list sorted by non-increasing key, `find?` returns the element with
the largest key among those satisfying the predicate. -/
lemma find?_desc_max {α : Type} (key : α → ℕ) (p : α → Bool) :
    ∀ (l : List α), l.Pairwise (fun a b => key b ≤ key a) →
      ∀ r, l.find? p = some r → ∀ s ∈ l, p s = true → key s ≤ key r := by
  intro l
  induction l with
  | nil => intro _ r hr; simp at hr
  | cons y ys ih =>
    intro hpw r hr s hs hps
    rw [List.pairwise_cons] at hpw
    by_cases hy : p y = true
    · rw [List.find?_cons_of_pos _ hy] at hr
      cases hr
      rcases List.mem_cons.mp hs with rfl | hs2
      · exact le_refl _
      · exact hpw.1 s hs2
    · rw [List.find?_cons_of_neg _ hy] at hr
      rcases List.mem_cons.mp hs with rfl | hs2
      · exact absurd hps hy
      · exact ih hpw.2 r hr s hs2 hps

/-- C7: on a nonempty, oldest-first time-ordered buffer, the reference
selection returns the newest entry whose age is at least the window when one
exists, and otherwise falls back to the oldest entry of the buffer. -/
theorem C7_findRefSample_selection (buf : List SampleA) (ts w : ℕ) (fb : SampleA)
    (hne : buf ≠ []) (hsort : buf.Pairwise (fun a b => a.ts ≤ b.ts)) :
    ((∃ s ∈ buf, w ≤ ts - s.ts) →
        findRefSample buf ts w fb ∈ buf ∧ w ≤ ts - (findRefSample buf ts w fb).ts ∧
        ∀ s ∈ buf, w ≤ ts - s.ts → s.ts ≤ (findRefSample buf ts w fb).ts) ∧
    ((∀ s ∈ buf, ts - s.ts < w) →
        findRefSample buf ts w fb ∈ buf ∧
        ∀ s ∈ buf, (findRefSample buf ts w fb).ts ≤ s.ts) := by
  constructor
  · intro hex
    obtain ⟨s0, hs0, hq0⟩ := hex
    have hsome : (buf.reverse.find? (fun s => decide (w ≤ ts - s.ts))).isSome := by
      rw [List.find?_isSome]
      exact ⟨s0, List.mem_reverse.mpr hs0, by simpa using hq0⟩
    obtain ⟨r, hr⟩ := Option.isSome_iff_exists.mp hsome
    have hmem : r ∈ buf := List.mem_reverse.mp (List.mem_of_find?_eq_some hr)
    have hpr : w ≤ ts - r.ts := by simpa using List.find?_some hr
    have hres : findRefSample buf ts w fb = r := by simp [findRefSample, hr]
    have hrevsorted : buf.reverse.Pairwise (fun a b : SampleA => b.ts ≤ a.ts) := by
      rw [List.pairwise_reverse]; exact hsort
    rw [hres]
    refine ⟨hmem, hpr, ?_⟩
    intro s hs hqs
    exact find?_desc_max (fun x => x.ts) _ buf.reverse hrevsorted r hr s
      (List.mem_reverse.mpr hs) (by simpa using hqs)
  · intro hall
    have hnone : buf.reverse.find? (fun s => decide (w ≤ ts - s.ts)) = none := by
      rw [List.find?_eq_none]
      intro x hx
      simpa using not_le.mpr (hall x (List.mem_reverse.mp hx))
    have hres : findRefSample buf ts w fb = buf.headD fb := by simp [findRefSample, hnone]
    rw [hres]
    cases buf with
    | nil => exact absurd rfl hne
    | cons y ys =>
      rw [List.pairwise_cons] at hsort
      refine ⟨by simp, ?_⟩
      intro s hs
      rcases List.mem_cons.mp hs with rfl | hs2
      · simp
      · simpa using hsort.1 s hs2

/-- Concrete three-entry buffer for the C7 witness: timestamps 100, 200, 300,
queried at time 400 with a 150 s window (entries aged 300, 200, 100). -/
def c7Buf : List SampleA :=
  [({ ts := 100, vol24 := 1, diff := 0 } : SampleA),
   ({ ts := 200, vol24 := 2, diff := 0 } : SampleA),
   ({ ts := 300, vol24 := 3, diff := 0 } : SampleA)]

/-- C7 witness: with two qualifying entries (ages 300 and 200), the selection
returns a qualifying in-buffer entry that is newest among the qualifiers. -/
theorem C7_findRefSample_selection_witness :
    findRefSample c7Buf 400 150 ({ ts := 0, vol24 := 0, diff := 0 } : SampleA) ∈ c7Buf ∧
    150 ≤ 400 - (findRefSample c7Buf 400 150 ({ ts := 0, vol24 := 0, diff := 0 } : SampleA)).ts ∧
    ∀ s ∈ c7Buf, 150 ≤ 400 - s.ts →
      s.ts ≤ (findRefSample c7Buf 400 150 ({ ts := 0, vol24 := 0, diff := 0 } : SampleA)).ts :=
  (C7_findRefSample_selection c7Buf 400 150 ({ ts := 0, vol24 := 0, diff := 0 } : SampleA)
      (by simp [c7Buf]) (by simp [c7Buf])).1
    ⟨({ ts := 100, vol24 := 1, diff := 0 } : SampleA), by simp [c7Buf], by norm_num⟩

/-- The timestamp of the most recent processed observation (0 before any). -/
def obsBound (S : PairState) : ℕ :=
  match S.last with
  | none => 0
  | some l => l.ts

/-- The retention invariants of the two buffers of the lookback iteration:
both buffers are time-ordered; the long buffer has strictly increasing
minute-resolution buckets (hence at most one entry per bucket) and spans at
most `keepSeconds`; the trend buffer spans at most the short horizon; the
bucket marker and all entries are bounded by the last observation. -/
def BufferInv (cfg : Config) (S : PairState) : Prop :=
  S.daybuf.Pairwise (fun a b => a.ts ≤ b.ts) ∧
  S.daybuf.Pairwise (fun a b => a.ts / cfg.daybufResSec < b.ts / cfg.daybufResSec) ∧
  (∀ a ∈ S.daybuf, ∀ b ∈ S.daybuf, a.ts - b.ts ≤ keepSeconds cfg) ∧
  S.buf.Pairwise (fun a b => a.ts ≤ b.ts) ∧
  (∀ a ∈ S.buf, ∀ b ∈ S.buf, a.ts - b.ts ≤ horizonB cfg) ∧
  (∀ e ∈ S.daybuf, e.ts / cfg.daybufResSec ≤ S.lastMinuteBucket) ∧
  (∀ e ∈ S.daybuf, e.ts ≤ obsBound S) ∧
  (∀ e ∈ S.buf, e.ts ≤ obsBound S) ∧
  S.lastMinuteBucket ≤ obsBound S / cfg.daybufResSec

/-- Every survivor of a `dropWhile` over a list sorted by a key fails the
dropped predicate, provided the predicate is downward closed in the key. -/
lemma dropWhile_all_false {α : Type} (key : α → ℕ) (p : α → Bool)
    (hp : ∀ a b : α, key a ≤ key b → p b = true → p a = true) :
    ∀ (l : List α), l.Pairwise (fun a b => key a ≤ key b) →
      ∀ e ∈ l.dropWhile p, p e = false := by
  intro l
  induction l with
  | nil => simp
  | cons x xs ih =>
    intro hpw e he
    rw [List.pairwise_cons] at hpw
    rw [List.dropWhile_cons] at he
    by_cases hx : p x = true
    · rw [if_pos hx] at he
      exact ih hpw.2 e he
    · rw [if_neg hx] at he
      rcases List.mem_cons.mp he with rfl | he2
      · simpa using hx
      · rcases Bool.eq_false_or_eq_true (p e) with h | h
        · exact absurd (hp x e (hpw.1 e he2) h) hx
        · exact h

/-- Long-buffer invariants after `pushMinuteSample`, stated against the new
observation timestamp. -/
lemma pushMinuteSample_inv (cfg : Config) (S : PairState) (ts : ℕ) (vol price : ℚ)
    (h1 : S.daybuf.Pairwise (fun a b => a.ts ≤ b.ts))
    (h2 : S.daybuf.Pairwise (fun a b => a.ts / cfg.daybufResSec < b.ts / cfg.daybufResSec))
    (h3 : ∀ a ∈ S.daybuf, ∀ b ∈ S.daybuf, a.ts - b.ts ≤ keepSeconds cfg)
    (h6 : ∀ e ∈ S.daybuf, e.ts / cfg.daybufResSec ≤ S.lastMinuteBucket)
    (h7 : ∀ e ∈ S.daybuf, e.ts ≤ obsBound S)
    (h9 : S.lastMinuteBucket ≤ obsBound S / cfg.daybufResSec)
    (hord : obsBound S ≤ ts) :
    (pushMinuteSample cfg S ts vol price).daybuf.Pairwise (fun a b => a.ts ≤ b.ts) ∧
    (pushMinuteSample cfg S ts vol price).daybuf.Pairwise
      (fun a b => a.ts / cfg.daybufResSec < b.ts / cfg.daybufResSec) ∧
    (∀ a ∈ (pushMinuteSample cfg S ts vol price).daybuf,
      ∀ b ∈ (pushMinuteSample cfg S ts vol price).daybuf, a.ts - b.ts ≤ keepSeconds cfg) ∧
    (∀ e ∈ (pushMinuteSample cfg S ts vol price).daybuf,
      e.ts / cfg.daybufResSec ≤ (pushMinuteSample cfg S ts vol price).lastMinuteBucket) ∧
    (∀ e ∈ (pushMinuteSample cfg S ts vol price).daybuf, e.ts ≤ ts) ∧
    (pushMinuteSample cfg S ts vol price).lastMinuteBucket ≤ ts / cfg.daybufResSec := by
  have hts : ∀ e ∈ S.daybuf, e.ts ≤ ts := fun e he => le_trans (h7 e he) hord
  have hbdiv : S.lastMinuteBucket ≤ ts / cfg.daybufResSec :=
    le_trans h9 (Nat.div_le_div_right hord)
  simp only [pushMinuteSample]
  split_ifs with hskip
  · exact ⟨h1, h2, h3, h6, hts, hskip ▸ hbdiv⟩
  · simp only
    have hlt : S.lastMinuteBucket < ts / cfg.daybufResSec :=
      lt_of_le_of_ne hbdiv (by simpa using hskip)
    set newSample : DaySample := { ts := ts, vol24 := vol, price := price } with hnew
    set appended := S.daybuf ++ [newSample] with happ
    have happw : appended.Pairwise (fun a b => a.ts ≤ b.ts) := by
      rw [happ, List.pairwise_append]
      refine ⟨h1, by simp, ?_⟩
      intro a ha b hb
      rw [List.mem_singleton] at hb
      subst hb
      exact hts a ha
    have happb : appended.Pairwise
        (fun a b => a.ts / cfg.daybufResSec < b.ts / cfg.daybufResSec) := by
      rw [happ, List.pairwise_append]
      refine ⟨h2, by simp, ?_⟩
      intro a ha b hb
      rw [List.mem_singleton] at hb
      subst hb
      exact lt_of_le_of_lt (h6 a ha) hlt
    have hsub : (appended.dropWhile
        (fun e => decide (e.ts < ts - keepSeconds cfg))).Sublist appended :=
      List.dropWhile_sublist _
    have hmemapp : ∀ e ∈ appended, e.ts ≤ ts := by
      intro e he
      rw [happ, List.mem_append] at he
      rcases he with he | he
      · exact hts e he
      · rw [List.mem_singleton] at he
        subst he
        exact le_refl _
    have hbuckapp : ∀ e ∈ appended, e.ts / cfg.daybufResSec ≤ ts / cfg.daybufResSec := by
      intro e he
      rw [happ, List.mem_append] at he
      rcases he with he | he
      · exact le_trans (h6 e he) (le_of_lt hlt)
      · rw [List.mem_singleton] at he
        subst he
        exact le_refl _
    have hsurvive : ∀ e ∈ appended.dropWhile (fun e => decide (e.ts < ts - keepSeconds cfg)),
        ¬ (e.ts < ts - keepSeconds cfg) := by
      intro e he
      have := dropWhile_all_false (fun x : DaySample => x.ts)
        (fun e => decide (e.ts < ts - keepSeconds cfg))
        (fun a b hab hb => by
          simp only [decide_eq_true_eq] at hb ⊢
          have hab2 : a.ts ≤ b.ts := hab
          omega) appended happw e he
      simpa using this
    refine ⟨happw.sublist hsub, happb.sublist hsub, ?_, ?_, ?_, le_refl _⟩
    · intro a ha b hb
      have haa := hmemapp a (hsub.subset ha)
      have hbb := hsurvive b hb
      omega
    · intro e he
      exact hbuckapp e (hsub.subset he)
    · intro e he
      exact hmemapp e (hsub.subset he)

/-- Trend-buffer invariants after the push-and-trim of `computeFromTicker`. -/
lemma bufPush_inv (cfg : Config) (buf : List TrendSample) (ts : ℕ) (d : ℚ)
    (h4 : buf.Pairwise (fun a b => a.ts ≤ b.ts))
    (hts : ∀ e ∈ buf, e.ts ≤ ts) :
    ((buf ++ [({ ts := ts, diff := d } : TrendSample)]).dropWhile
        (fun e => decide (ts - e.ts > horizonB cfg))).Pairwise (fun a b => a.ts ≤ b.ts) ∧
    (∀ a ∈ (buf ++ [({ ts := ts, diff := d } : TrendSample)]).dropWhile
        (fun e => decide (ts - e.ts > horizonB cfg)),
      ∀ b ∈ (buf ++ [({ ts := ts, diff := d } : TrendSample)]).dropWhile
        (fun e => decide (ts - e.ts > horizonB cfg)), a.ts - b.ts ≤ horizonB cfg) ∧
    (∀ e ∈ (buf ++ [({ ts := ts, diff := d } : TrendSample)]).dropWhile
        (fun e => decide (ts - e.ts > horizonB cfg)), e.ts ≤ ts) := by
  set newSample : TrendSample := { ts := ts, diff := d } with hnew
  set appended := buf ++ [newSample] with happ
  have happw : appended.Pairwise (fun a b => a.ts ≤ b.ts) := by
    rw [happ, List.pairwise_append]
    refine ⟨h4, by simp, ?_⟩
    intro a ha b hb
    rw [List.mem_singleton] at hb
    subst hb
    exact hts a ha
  have hmemapp : ∀ e ∈ appended, e.ts ≤ ts := by
    intro e he
    rw [happ, List.mem_append] at he
    rcases he with he | he
    · exact hts e he
    · rw [List.mem_singleton] at he
      subst he
      exact le_refl _
  have hsub : (appended.dropWhile
      (fun e => decide (ts - e.ts > horizonB cfg))).Sublist appended :=
    List.dropWhile_sublist _
  have hsurvive : ∀ e ∈ appended.dropWhile (fun e => decide (ts - e.ts > horizonB cfg)),
      ¬ (ts - e.ts > horizonB cfg) := by
    intro e he
    have := dropWhile_all_false (fun x : TrendSample => x.ts)
      (fun e => decide (ts - e.ts > horizonB cfg))
      (fun a b hab hb => by
        simp only [decide_eq_true_eq] at hb ⊢
        have hab2 : a.ts ≤ b.ts := hab
        omega) appended happw e he
    simpa using this
  refine ⟨happw.sublist hsub, ?_, ?_⟩
  · intro a ha b hb
    have haa := hmemapp a (hsub.subset ha)
    have hbb := hsurvive b hb
    omega
  · intro e he
    exact hmemapp e (hsub.subset he)

/-- `maybeAlert` does not move the last-observation timestamp. -/
lemma obsBound_maybeAlert (cfgA : Config) (S : PairState) (nowMs : ℕ) :
    obsBound (maybeAlert cfgA S nowMs).1 = obsBound S := by
  simp [obsBound, (maybeAlert_frame cfgA S nowMs).1]

/-- The buffer invariants pass through `maybeAlert` unchanged. -/
lemma BufferInv_maybeAlert (cfgI cfgA : Config) (S : PairState) (nowMs : ℕ) :
    BufferInv cfgI (maybeAlert cfgA S nowMs).1 ↔ BufferInv cfgI S := by
  obtain ⟨f1, f2, f3, _, _, _, f7⟩ := maybeAlert_frame cfgA S nowMs
  unfold BufferInv
  rw [f2, f3, f7, obsBound_maybeAlert]

/-- C8: the retention invariants hold initially and are preserved by every
record of an observation processed in timestamp order: both buffers stay
time-ordered, the long buffer keeps at most one entry per minute-resolution
bucket and spans at most `max(lookbackHours+2, 26)` hours, and the trend
buffer spans at most the short horizon. -/
theorem C8_buffer_retention_invariants :
    (∀ cfg : Config, BufferInv cfg initPairState) ∧
    (∀ (cfg : Config) (S : PairState) (ts nowMs : ℕ) (vol price avg : ℚ),
        BufferInv cfg S → obsBound S ≤ ts →
        BufferInv cfg (computeFromTicker cfg S ts vol price avg nowMs).1) := by
  constructor
  · intro cfg
    simp [BufferInv, initPairState, obsBound]
  · intro cfg S ts nowMs vol price avg hInv hord
    obtain ⟨h1, h2, h3, h4, h5, h6, h7, h8, h9⟩ := hInv
    obtain ⟨p1, p2, p3, p4, p5, p6⟩ :=
      pushMinuteSample_inv cfg S ts vol price h1 h2 h3 h6 h7 h9 hord
    have hbufeq : (pushMinuteSample cfg S ts vol price).buf = S.buf :=
      (pushMinuteSample_frame cfg S ts vol price).2.2.2.2.1
    have hts8 : ∀ e ∈ S.buf, e.ts ≤ ts := fun e he => le_trans (h8 e he) hord
    cases href : sampleAtLookback cfg (pushMinuteSample cfg S ts vol price) ts with
    | none =>
      simp only [computeFromTicker, href]
      refine ⟨p1, p2, p3, ?_, ?_, p4, p5, ?_, p6⟩
      · exact hbufeq ▸ h4
      · exact hbufeq ▸ h5
      · exact hbufeq ▸ hts8
    | some ref =>
      simp only [computeFromTicker, href]
      rw [BufferInv_maybeAlert]
      have hb4 : (pushMinuteSample cfg S ts vol price).buf.Pairwise
          (fun a b => a.ts ≤ b.ts) := hbufeq ▸ h4
      have hbts : ∀ e ∈ (pushMinuteSample cfg S ts vol price).buf, e.ts ≤ ts :=
        hbufeq ▸ hts8
      obtain ⟨q1, q2, q3⟩ := bufPush_inv cfg (pushMinuteSample cfg S ts vol price).buf ts
        (((vol - ref.vol24) / nonneg ref.vol24 * 100) -
          ((price - ref.price) / nonneg ref.price * 100)) hb4 hbts
      exact ⟨p1, p2, p3, q1, q2, p4, p5, q3, p6⟩

/-- C8 witness: the invariants after recording one observation into the fresh
state. -/
theorem C8_buffer_retention_invariants_witness :
    BufferInv defaultConfig
      (computeFromTicker defaultConfig initPairState 1000000 5 7 7 123).1 :=
  C8_buffer_retention_invariants.2 defaultConfig initPairState 1000000 123 5 7 7
    (C8_buffer_retention_invariants.1 defaultConfig)
    (by simp [obsBound, initPairState])

/-- Every entry of the snapshot projection comes from a pair of the
subscription list whose state has a last observation, rendered by
`snapEntry`. -/
lemma mem_currentSnapshot_pairs {ratioMode : Bool} {ws : List String}
    {pp : String → Option PairState} {now : ℕ} {p : String} {e : SnapEntry}
    (h : (p, e) ∈ (currentSnapshot ratioMode ws pp now).pairs) :
    p ∈ ws ∧ ∃ S l, pp p = some S ∧ S.last = some l ∧ e = snapEntry S l := by
  simp only [currentSnapshot] at h
  rw [List.mem_filterMap] at h
  obtain ⟨a, ha, hfa⟩ := h
  cases hpa : pp a with
  | none => rw [hpa] at hfa; simp at hfa
  | some S =>
    rw [hpa] at hfa
    cases hl : S.last with
    | none => simp [hl] at hfa
    | some l =>
      simp only [hl, Option.some.injEq, Prod.mk.injEq] at hfa
      obtain ⟨rfl, rfl⟩ := hfa
      exact ⟨ha, S, l, hpa, hl, rfl⟩

/-- C9: building a snapshot is a pure read: the per-pair state map after the
call is the one before it (the source performs no assignment), the projection
contains only subscribed pairs that have a last observation (each rendered by
`snapEntry`), and the ranked top list only names pairs of the projection. -/
theorem C9_snapshot_readonly (ratioMode : Bool) (ws : List String)
    (pp : String → Option PairState) (now : ℕ) :
    (snapshotStep ratioMode ws pp now).2 = pp ∧
    (∀ (p : String) (e : SnapEntry),
        (p, e) ∈ (snapshotStep ratioMode ws pp now).1.pairs →
        p ∈ ws ∧ ∃ S l, pp p = some S ∧ S.last = some l ∧ e = snapEntry S l) ∧
    (∀ p ∈ (snapshotStep ratioMode ws pp now).1.top,
        ∃ e : SnapEntry, (p, e) ∈ (snapshotStep ratioMode ws pp now).1.pairs) := by
  refine ⟨rfl, ?_, ?_⟩
  · intro p e h
    exact mem_currentSnapshot_pairs h
  · intro p hp
    simp only [snapshotStep, currentSnapshot] at hp ⊢
    have hp2 := List.mem_of_mem_take hp
    rw [List.mem_map] at hp2
    obtain ⟨x, hx, hfx⟩ := hp2
    rw [mem_sortDesc] at hx
    subst hfx
    exact ⟨x.2, hx⟩

/-- Concrete pair state for the C9 witness. -/
def c9State : PairState :=
  { initPairState with
    last := some ({ ts := 42, vol24 := 1, price := 2, avg24 := 3 } : Obs),
    vol24Pct := 7 }

/-- Concrete one-pair map for the C9 witness. -/
def c9Map : String → Option PairState :=
  fun p => if p = "B/USD" then some c9State else none

/-- C9 witness: the projection membership characterization applied to the
concrete one-pair snapshot. -/
theorem C9_snapshot_readonly_witness :
    "B/USD" ∈ ["B/USD"] ∧
    ∃ S l, c9Map "B/USD" = some S ∧ S.last = some l ∧
      snapEntry c9State ({ ts := 42, vol24 := 1, price := 2, avg24 := 3 } : Obs) =
        snapEntry S l :=
  (C9_snapshot_readonly true ["B/USD"] c9Map 9).2.1 "B/USD"
    (snapEntry c9State ({ ts := 42, vol24 := 1, price := 2, avg24 := 3 } : Obs))
    (by simp [snapshotStep, currentSnapshot, c9Map, c9State, List.filterMap_cons,
      initPairState])

/-- C10: the surface-rounding helper `pct` is total: a finite input is
rounded to two decimal places (`Math.round(n*100)/100`) and every non-finite
input (`NaN`, `Infinity`, `-Infinity`) maps to 0; every percentage field of
an emitted snapshot entry is obtained by applying this helper to the stored
metric value, and hence is a (finite) rational. -/
theorem C10_pct_total_and_snapshot_finite :
    (∀ q : ℚ, pct (JsNum.num q) = (jround (q * 100) : ℚ) / 100) ∧
    (∀ n : JsNum, n.isFinite = false → pct n = 0) ∧
    (pct JsNum.nan = 0 ∧ pct JsNum.posInf = 0 ∧ pct JsNum.negInf = 0) ∧
    (∀ q : ℚ, pct (JsNum.num q) = pctQ q) ∧
    (∀ (ratioMode : Bool) (ws : List String) (pp : String → Option PairState) (now : ℕ)
        (p : String) (e : SnapEntry),
        (p, e) ∈ (currentSnapshot ratioMode ws pp now).pairs →
        ∃ S : PairState, pp p = some S ∧
          e.volVelPct = pct (JsNum.num S.vol24Pct) ∧
          e.priceChangePct = pct (JsNum.num S.price24Pct) ∧
          e.diffPct = pct (JsNum.num S.diffPct)) := by
  refine ⟨fun q => rfl, ?_, ⟨rfl, rfl, rfl⟩, fun q => rfl, ?_⟩
  · intro n h
    cases n with
    | num q => simp [JsNum.isFinite] at h
    | nan => rfl
    | posInf => rfl
    | negInf => rfl
  · intro ratioMode ws pp now p e h
    obtain ⟨-, S, l, hS, hl, he⟩ := mem_currentSnapshot_pairs h
    exact ⟨S, hS, by rw [he]; rfl, by rw [he]; rfl, by rw [he]; rfl⟩

/-- C10 witness: totality applied to the non-finite inputs and a finite
input. -/
theorem C10_pct_total_and_snapshot_finite_witness :
    pct JsNum.posInf = 0 ∧ pct (JsNum.num (51/10)) = (jround ((51/10) * 100) : ℚ) / 100 :=
  ⟨C10_pct_total_and_snapshot_finite.2.1 JsNum.posInf (by rfl),
   C10_pct_total_and_snapshot_finite.1 (51/10)⟩

end KrakenVolume
